import Mathlib

set_option maxRecDepth 8000

namespace ML

/-! Shallow embedding of the monaco-liquid sources: the zod-backed schema
path resolver and type renderer, the variable-path extractor, the two
structural validators (`src/unnamed/part_001` and `src/index.ts`), and the
debounced re-validation attachment. -/

/-- Value carried by a `ZodLiteral` node: the source checks
`typeof value === 'string'` and otherwise displays `String(value)`, so a
literal value is modelled as either a string or an opaque display form. -/
inductive LitValue where
  | strVal (v : String)
  | nonStrVal (display : String)

/-- Type descriptor tree modelling the zod schema classes the source
inspects with `instanceof`: ZodObject, ZodArray, ZodString, ZodNumber,
ZodBoolean, ZodDate, ZodLiteral, ZodEnum, ZodUnion, and the wrapper
classes ZodOptional, ZodNullable, ZodDefault.  `other` stands for any
schema class the source does not recognize. -/
inductive Schema where
  | obj (shape : List (String × Schema))
  | arr (elem : Schema)
  | str
  | num
  | bool
  | date
  | lit (values : List LitValue)
  | enum (values : List String)
  | union (options : List Schema)
  | opt (inner : Schema)
  | nullbl (inner : Schema)
  | withDefault (inner : Schema)
  | other

/-- Embedding of `unwrapSchema` (part_001 lines 207-212): strip
Optional/Nullable/Default wrappers recursively. -/
def unwrapSchema : Schema → Schema
  | .opt inner => unwrapSchema inner
  | .nullbl inner => unwrapSchema inner
  | .withDefault inner => unwrapSchema inner
  | s => s

/-- Discriminates the wrapper variants (ZodOptional, ZodNullable, ZodDefault). -/
def isWrapper : Schema → Bool
  | .opt _ => true
  | .nullbl _ => true
  | .withDefault _ => true
  | _ => false

theorem unwrap_not_wrapper : (s : Schema) → isWrapper (unwrapSchema s) = false
  | .opt i => unwrap_not_wrapper i
  | .nullbl i => unwrap_not_wrapper i
  | .withDefault i => unwrap_not_wrapper i
  | .obj _ => rfl
  | .arr _ => rfl
  | .str => rfl
  | .num => rfl
  | .bool => rfl
  | .date => rfl
  | .lit _ => rfl
  | .enum _ => rfl
  | .union _ => rfl
  | .other => rfl

theorem unwrap_unwrap : (s : Schema) → unwrapSchema (unwrapSchema s) = unwrapSchema s
  | .opt i => unwrap_unwrap i
  | .nullbl i => unwrap_unwrap i
  | .withDefault i => unwrap_unwrap i
  | .obj _ => rfl
  | .arr _ => rfl
  | .str => rfl
  | .num => rfl
  | .bool => rfl
  | .date => rfl
  | .lit _ => rfl
  | .enum _ => rfl
  | .union _ => rfl
  | .other => rfl

mutual

/-- Embedding of `getTypeString` (part_001 lines 241-271).  The source
first computes `unwrapSchema(schema)` and then dispatches on the result;
here the wrapper cases recurse directly, which is the same function
because `unwrapSchema` only strips wrapper constructors. -/
def getTypeString : Schema → String
  | .opt i => getTypeString i
  | .nullbl i => getTypeString i
  | .withDefault i => getTypeString i
  | .arr e => "Array<" ++ getTypeString e ++ ">"
  | .obj _ => "Object"
  | .str => "String"
  | .num => "Number"
  | .bool => "Boolean"
  | .date => "Date"
  | .lit values =>
    match values with
    | [] => "undefined"
    | .strVal v :: _ => "\"" ++ v ++ "\""
    | .nonStrVal d :: _ => d
  | .enum vs => String.intercalate " | " (vs.map (fun v => "\"" ++ v ++ "\""))
  | .union opts => String.intercalate " | " (getTypeStringList opts)
  | .other => "Unknown"

/-- Rendering mapped over the options of a `ZodUnion`
(`options.map((opt) => getTypeString(opt))` in the source). -/
def getTypeStringList : List Schema → List String
  | [] => []
  | s :: rest => getTypeString s :: getTypeStringList rest

end

theorem getTypeStringList_eq_map :
    (l : List Schema) → getTypeStringList l = l.map getTypeString
  | [] => rfl
  | s :: rest => by rw [getTypeStringList, List.map_cons, getTypeStringList_eq_map rest]

/-- Test for a purely numeric path segment, embedding `/^\d+$/.test(segment)`. -/
def isNumericSeg (seg : String) : Bool :=
  !seg.isEmpty && seg.toList.all Char.isDigit

/-- First-match lookup in an object shape, embedding
`Object.prototype.hasOwnProperty.call(shape, segment)` followed by
`shape[segment]` (JS object keys are unique, so first match suffices). -/
def lookupShape (seg : String) : List (String × Schema) → Option Schema
  | [] => none
  | (k, v) :: rest => if k = seg then some v else lookupShape seg rest

/-- One iteration of the `for (const segment of path)` loop body of
`navigateSchema` (part_001 lines 217-236): unwrap the current descriptor,
unconditionally unwrap an array to its (unwrapped) element, then skip a
numeric segment or descend into an object field. -/
def navStep (cur : Schema) (seg : String) : Option Schema :=
  let c1 := unwrapSchema cur
  let c2 := match c1 with
    | .arr e => unwrapSchema e
    | _ => c1
  if isNumericSeg seg then some c2
  else match c2 with
    | .obj shape => lookupShape seg shape
    | _ => none

/-- The segment loop of `navigateSchema`; on exhausting the path the source
returns `unwrapSchema(currentSchema)`. -/
def navLoop : Schema → List String → Option Schema
  | cur, [] => some (unwrapSchema cur)
  | cur, seg :: rest =>
    match navStep cur seg with
    | some v => navLoop v rest
    | none => none

/-- Embedding of `navigateSchema` (part_001 lines 214-239): the source
initializes `currentSchema = unwrapSchema(schema)` and then runs the loop. -/
def navigateSchema (schema : Schema) (path : List String) : Option Schema :=
  navLoop (unwrapSchema schema) path

theorem navStep_unwrap (cur : Schema) (seg : String) :
    navStep (unwrapSchema cur) seg = navStep cur seg := by
  unfold navStep
  rw [unwrap_unwrap]

theorem navLoop_unwrap (cur : Schema) (p : List String) :
    navLoop (unwrapSchema cur) p = navLoop cur p := by
  cases p with
  | nil => simp only [navLoop, unwrap_unwrap]
  | cons seg rest => simp only [navLoop, navStep_unwrap]

theorem navLoop_result_unwrapped :
    (p : List String) → (cur : Schema) → (r : Schema) →
    navLoop cur p = some r → isWrapper r = false
  | [], cur, r, h => by
    simp only [navLoop, Option.some.injEq] at h
    rw [← h]
    exact unwrap_not_wrapper cur
  | seg :: rest, cur, r, h => by
    rw [navLoop] at h
    cases hs : navStep cur seg with
    | none => rw [hs] at h; exact absurd h (by simp)
    | some v => rw [hs] at h; exact navLoop_result_unwrapped rest v r h

/-- C5: the resolver and the renderer never observe a wrapper variant:
every successful `navigateSchema` result is fully unwrapped, resolving any
path through an Optional/Nullable/WithDefault wrapper equals resolving it
against the wrapped descriptor directly (hence through any chain of
wrappers, by iterating), and rendering a wrapper renders its inner
descriptor. -/
theorem c5_unwrap_transparency :
    (∀ (s : Schema) (p : List String) (r : Schema),
      navigateSchema s p = some r → isWrapper r = false)
    ∧ (∀ (s : Schema) (p : List String),
        navigateSchema (.opt s) p = navigateSchema s p
        ∧ navigateSchema (.nullbl s) p = navigateSchema s p
        ∧ navigateSchema (.withDefault s) p = navigateSchema s p)
    ∧ (∀ (s : Schema),
        getTypeString (.opt s) = getTypeString s
        ∧ getTypeString (.nullbl s) = getTypeString s
        ∧ getTypeString (.withDefault s) = getTypeString s) := by
  refine ⟨?_, ?_, ?_⟩
  · intro s p r h
    exact navLoop_result_unwrapped p (unwrapSchema s) r h
  · intro s p
    exact ⟨rfl, rfl, rfl⟩
  · intro s
    exact ⟨rfl, rfl, rfl⟩

/-- Witness for C5 at a concrete wrapped object schema. -/
theorem c5_unwrap_transparency_witness :
    navigateSchema (.opt (.nullbl (.obj [("a", .str)]))) ["a"] = some .str
    ∧ isWrapper .str = false
    ∧ navigateSchema (.withDefault (.obj [("a", .str)])) ["a"]
        = navigateSchema (.obj [("a", .str)]) ["a"] :=
  ⟨rfl,
   c5_unwrap_transparency.1 (.opt (.nullbl (.obj [("a", .str)]))) ["a"] .str rfl,
   (c5_unwrap_transparency.2.1 (.obj [("a", .str)]) ["a"]).2.2⟩

/-- C6: path resolution composes: if resolving the one-segment path [a]
against D succeeds with R, then resolving [a, b] against D equals
resolving [b] against R. -/
theorem c6_navigate_compose (D : Schema) (a b : String) (R : Schema)
    (h : navigateSchema D [a] = some R) :
    navigateSchema D [a, b] = navigateSchema R [b] := by
  unfold navigateSchema at h ⊢
  rw [navLoop] at h ⊢
  cases hs : navStep (unwrapSchema D) a with
  | none => rw [hs] at h; exact absurd h (by simp)
  | some v =>
    rw [hs] at h
    simp only [navLoop, Option.some.injEq] at h
    show navLoop v [b] = navLoop (unwrapSchema R) [b]
    rw [← h, unwrap_unwrap, navLoop_unwrap]

/-- Witness for C6 at a concrete two-level object schema. -/
theorem c6_navigate_compose_witness :
    navigateSchema (.obj [("a", .obj [("b", .str)])]) ["a"] = some (.obj [("b", .str)])
    ∧ navigateSchema (.obj [("a", .obj [("b", .str)])]) ["a", "b"]
        = navigateSchema (.obj [("b", .str)]) ["b"] :=
  ⟨rfl, c6_navigate_compose (.obj [("a", .obj [("b", .str)])]) "a" "b" (.obj [("b", .str)]) rfl⟩

/-- C7: the type renderer maps every unwrapped variant to its display
string (Object, String, Number, Boolean, Date, Array<...>, quoted or
literal forms for Literal, quoted values joined with " | " for Enum,
rendered options joined with " | " for Union, "Unknown" for anything
unrecognized), and unwraps wrapper variants at every level of recursion. -/
theorem c7_type_rendering :
    (∀ shape, getTypeString (.obj shape) = "Object")
    ∧ getTypeString .str = "String"
    ∧ getTypeString .num = "Number"
    ∧ getTypeString .bool = "Boolean"
    ∧ getTypeString .date = "Date"
    ∧ (∀ t, getTypeString (.arr t) = "Array<" ++ getTypeString t ++ ">")
    ∧ (∀ v rest, getTypeString (.lit (.strVal v :: rest)) = "\"" ++ v ++ "\"")
    ∧ (∀ d rest, getTypeString (.lit (.nonStrVal d :: rest)) = d)
    ∧ (∀ vs, getTypeString (.enum vs)
        = String.intercalate " | " (vs.map (fun v => "\"" ++ v ++ "\"")))
    ∧ (∀ opts, getTypeString (.union opts)
        = String.intercalate " | " (opts.map getTypeString))
    ∧ getTypeString .other = "Unknown"
    ∧ (∀ s, getTypeString (.opt s) = getTypeString s
        ∧ getTypeString (.nullbl s) = getTypeString s
        ∧ getTypeString (.withDefault s) = getTypeString s) := by
  refine ⟨fun _ => rfl, rfl, rfl, rfl, rfl, fun _ => rfl, fun _ _ => rfl, fun _ _ => rfl,
    fun _ => rfl, fun opts => ?_, rfl, fun _ => ⟨rfl, rfl, rfl⟩⟩
  rw [getTypeString, getTypeStringList_eq_map]

/-! Path extractor (`getVariablePathAtPosition`, part_001 lines 417-427)
and the split-and-lookup wiring shared by the hover and completion
providers (lines 26-35 and 443-452). -/

/-- First character class of the path regex `[a-zA-Z_][\w\-.\[\]]*`. -/
def isPathStartChar (c : Char) : Bool :=
  c.isAlpha || c = '_'

/-- Continuation character class `[\w\-.\[\]]` of the path regex. -/
def isPathChar (c : Char) : Bool :=
  c.isAlphanum || c = '_' || c = '-' || c = '.' || c = '[' || c = ']'

/-- A character sequence matches `[a-zA-Z_][\w\-.\[\]]*` entirely. -/
def matchesPathGrammar : List Char → Bool
  | [] => false
  | c :: rest => isPathStartChar c && rest.all isPathChar

/-- Leftmost match of the end-anchored regex `[a-zA-Z_][\w\-.\[\]]*$`:
the regex engine tries each start position from the left, and a start
position matches exactly when the whole remaining suffix is in the
grammar (the greedy star must reach the `$` anchor). -/
def extractPathSuffix : List Char → Option (List Char)
  | [] => none
  | c :: rest =>
    if matchesPathGrammar (c :: rest) then some (c :: rest)
    else extractPathSuffix rest

/-- Embedding of `getVariablePathAtPosition`: the source takes
`lineContent.substring(0, position.column - 1)` (columns are 1-based) and
runs the end-anchored path regex on it. -/
def getVariablePathAtPosition (lineContent : List Char) (column : Nat) :
    Option (List Char) :=
  extractPathSuffix (lineContent.take (column - 1))

/-- Separator class of the split regex `/\.|\[|\]/`. -/
def pathSeparator (c : Char) : Bool :=
  c = '.' || c = '[' || c = ']'

/-- String.prototype.split on the separator class, producing raw
(possibly empty) segments. -/
def splitSegsAux : List Char → List Char → List (List Char)
  | [], acc => [acc.reverse]
  | c :: rest, acc =>
    if pathSeparator c then acc.reverse :: splitSegsAux rest []
    else splitSegsAux rest (c :: acc)

/-- Embedding of
`variablePath.split(/\.|\[|\]/).filter((segment) => segment !== '')`. -/
def splitPathSegments (cs : List Char) : List String :=
  ((splitSegsAux cs []).filter (fun seg => !seg.isEmpty)).map (fun seg => String.mk seg)

/-- Embedding of `getTypeInfoFromSchema` (part_001 lines 273-277). -/
def getTypeInfoFromSchema (schema : Schema) (path : List String) : Option String :=
  match navigateSchema schema path with
  | none => none
  | some navigated => some (getTypeString navigated)

/-- The hover/completion wiring (part_001 lines 26-35 and 443-452):
extract the path at the cursor, split it into segments, use the first
segment to look up the schema set, and resolve the remaining segments. -/
def getTypeInfoAtPosition (schemas : List (String × Schema))
    (lineContent : List Char) (column : Nat) : Option String :=
  match getVariablePathAtPosition lineContent column with
  | none => none
  | some variablePath =>
    match splitPathSegments variablePath with
    | [] => none
    | variableName :: restSegs =>
      match lookupShape variableName schemas with
      | none => none
      | some schema => getTypeInfoFromSchema schema restSegs

theorem extract_spec (text : List Char) :
    (∀ r, extractPathSuffix text = some r →
      r <:+ text ∧ matchesPathGrammar r = true
        ∧ ∀ s, s <:+ text → matchesPathGrammar s = true → s.length ≤ r.length)
    ∧ (extractPathSuffix text = none →
        ∀ s, s <:+ text → matchesPathGrammar s = false) := by
  induction text with
  | nil =>
    constructor
    · intro r h; exact absurd h (by simp [extractPathSuffix])
    · intro _ s hs
      rw [List.suffix_nil.mp hs]
      rfl
  | cons c rest ih =>
    by_cases hg : matchesPathGrammar (c :: rest) = true
    · constructor
      · intro r h
        rw [extractPathSuffix, if_pos hg, Option.some.injEq] at h
        subst h
        exact ⟨List.suffix_refl _, hg, fun s hs _ => hs.length_le⟩
      · intro h
        rw [extractPathSuffix, if_pos hg] at h
        exact absurd h (by simp)
    · have hg' : matchesPathGrammar (c :: rest) = false := by
        exact Bool.not_eq_true _ ▸ eq_false_of_ne_true hg
      have hstep : extractPathSuffix (c :: rest) = extractPathSuffix rest := by
        rw [extractPathSuffix, if_neg hg]
      constructor
      · intro r h
        rw [hstep] at h
        obtain ⟨hsuff, hgram, hlong⟩ := ih.1 r h
        refine ⟨hsuff.trans (List.suffix_cons c rest), hgram, ?_⟩
        intro s hs hgs
        rcases List.suffix_cons_iff.mp hs with hfull | htail
        · rw [hfull] at hgs
          exact absurd hgs (by rw [hg']; simp)
        · exact hlong s htail hgs
      · intro h s hs
        rw [hstep] at h
        rcases List.suffix_cons_iff.mp hs with hfull | htail
        · rw [hfull]; exact hg'
        · exact ih.2 h s htail

/-- C8: the path extractor returns the longest suffix of the text before
the cursor matching `[a-zA-Z_][\w\-.\[\]]*`, returns nothing when no
suffix matches, and splitting the result on '.', '[', ']' (dropping empty
segments) yields the path whose first segment is looked up in the schema
set while the remaining segments are passed to the resolver. -/
theorem c8_path_extractor (lineContent : List Char) (column : Nat) :
    (∀ r, getVariablePathAtPosition lineContent column = some r →
      r <:+ lineContent.take (column - 1) ∧ matchesPathGrammar r = true
        ∧ ∀ s, s <:+ lineContent.take (column - 1) →
            matchesPathGrammar s = true → s.length ≤ r.length)
    ∧ (getVariablePathAtPosition lineContent column = none →
        ∀ s, s <:+ lineContent.take (column - 1) → matchesPathGrammar s = false)
    ∧ (∀ schemas variablePath variableName restSegs,
        getVariablePathAtPosition lineContent column = some variablePath →
        splitPathSegments variablePath = variableName :: restSegs →
        getTypeInfoAtPosition schemas lineContent column =
          match lookupShape variableName schemas with
          | none => none
          | some schema => getTypeInfoFromSchema schema restSegs) := by
  refine ⟨(extract_spec _).1, (extract_spec _).2, ?_⟩
  intro schemas variablePath variableName restSegs hvp hsplit
  unfold getTypeInfoAtPosition
  simp only [hvp, hsplit]

/-- Witness for C8: extracting at column 13 of the line
`{{ user.name` yields `user.name`, which splits into `user` then `name`
and resolves to String against a user schema. -/
theorem c8_path_extractor_witness :
    matchesPathGrammar (String.toList "user.name") = true
    ∧ getTypeInfoAtPosition [("user", .obj [("name", .str)])]
        (String.toList "\x7b\x7b user.name") 13 = some "String" := by
  have h := c8_path_extractor (String.toList "\x7b\x7b user.name") 13
  refine ⟨(h.1 (String.toList "user.name") (by decide)).2.1, ?_⟩
  have hw := h.2.2 [("user", .obj [("name", .str)])] (String.toList "user.name")
    "user" ["name"] (by decide) (by decide)
  rw [hw]
  rfl

/-! Structural validator.  The source (`validateLiquidSyntax`,
part_001 lines 519-642 and index.ts lines 479-609) splits the document on
`/\r?\n/` and, per line, scans four global regexes:
tagRegex `\x7b%-?\s*(\w+)(?:\s[^%]*)?-?%\x7d`,
endTagRegex `\x7b%-?\s*end(\w+)\s*-?%\x7d`,
outputStartRegex `\{\{-?`, outputEndRegex `-?\}\}` (all global),
replaying first the output markers sorted by column, then all opening
tags, then all closing tags. -/

/-- JavaScript `\w` character class `[A-Za-z0-9_]`. -/
def isWordChar (c : Char) : Bool :=
  c.isAlphanum || c = '_'

/-- JavaScript `\s` character class (ASCII whitespace; the scanned lines
contain no line terminators, which were removed by the split). -/
def isJsSpace (c : Char) : Bool :=
  c = ' ' || c = '\t' || c = '\n' || c = '\r' || c = '\x0b' || c = '\x0c'

/-- Match indices of the global regex `\{\{-?`: at each `{{` the greedy
`-?` absorbs a following `-`; the engine then continues after the match. -/
def scanOStarts : List Char → Nat → List Nat
  | '{' :: '{' :: '-' :: rest, i => i :: scanOStarts rest (i + 3)
  | '{' :: '{' :: rest, i => i :: scanOStarts rest (i + 2)
  | _ :: rest, i => scanOStarts rest (i + 1)
  | [], _ => []

/-- Match indices of the global regex `-?\}\}`: at each position the
greedy `-?` first tries to absorb a `-` directly before `}}`. -/
def scanOEnds : List Char → Nat → List Nat
  | '-' :: '}' :: '}' :: rest, i => i :: scanOEnds rest (i + 3)
  | '}' :: '}' :: rest, i => i :: scanOEnds rest (i + 2)
  | _ :: rest, i => scanOEnds rest (i + 1)
  | [], _ => []

/-- Index of the first `%` in a list, used for the bounded backtracking of
`(?:\s[^%]*)?-?%\x7d`: the greedy `[^%]*` can never cross a `%`, so the
only possible match end is right after the first `%` (with or without the
optional `-` absorbed by the star). -/
def idxOfPercent : List Char → Option Nat
  | [] => none
  | '%' :: _ => some 0
  | _ :: rest => (idxOfPercent rest).map (· + 1)

/-- Anchored attempt of `tagRegex` at the head of `cs`, returning the
captured tag name and the full match length.  Backtracking analysis of
`\x7b%-?\s*(\w+)(?:\s[^%]*)?-?%\x7d`: after the literal `\x7b%`, the
optional `-`, the maximal whitespace run and the maximal word run are all
forced (shorter choices fail immediately on the next atom); if the next
character is whitespace the optional group is entered and the match can
only end just after the first subsequent `%`, which must be followed by
`\x7d`; otherwise the tail `-?%\x7d` must match literally. -/
def tagMatchAt : List Char → Option (String × Nat)
  | '{' :: '%' :: rest =>
    let (rest1, used1) := match rest with
      | '-' :: r => (r, 3)
      | _ => (rest, 2)
    let ws := rest1.takeWhile isJsSpace
    let rest2 := rest1.dropWhile isJsSpace
    let w := rest2.takeWhile isWordChar
    let rest3 := rest2.dropWhile isWordChar
    if w.isEmpty then none
    else
      let base := used1 + ws.length + w.length
      match rest3 with
      | [] => none
      | c :: rest4 =>
        if isJsSpace c then
          match idxOfPercent rest4 with
          | none => none
          | some q =>
            if rest4.get? (q + 1) = some '}'
            then some (String.mk w, base + 1 + q + 2)
            else none
        else
          match rest3 with
          | '-' :: '%' :: '}' :: _ => some (String.mk w, base + 3)
          | '%' :: '}' :: _ => some (String.mk w, base + 2)
          | _ => none
  | _ => none

/-- Anchored attempt of `endTagRegex` at the head of `cs`:
`\x7b%-?\s*end(\w+)\s*-?%\x7d` with all greedy atoms forced. -/
def endTagMatchAt : List Char → Option (String × Nat)
  | '{' :: '%' :: rest =>
    let (rest1, used1) := match rest with
      | '-' :: r => (r, 3)
      | _ => (rest, 2)
    let ws := rest1.takeWhile isJsSpace
    let rest2 := rest1.dropWhile isJsSpace
    match rest2 with
    | 'e' :: 'n' :: 'd' :: rest3 =>
      let w := rest3.takeWhile isWordChar
      let rest4 := rest3.dropWhile isWordChar
      if w.isEmpty then none
      else
        let ws2 := rest4.takeWhile isJsSpace
        let rest5 := rest4.dropWhile isJsSpace
        let base := used1 + ws.length + 3 + w.length + ws2.length
        match rest5 with
        | '-' :: '%' :: '}' :: _ => some (String.mk w, base + 3)
        | '%' :: '}' :: _ => some (String.mk w, base + 2)
        | _ => none
    | _ => none
  | _ => none

/-- Repeated `exec` of a global regex: try the anchored matcher at every
position from left to right, continuing after each match (`lastIndex`).
The fuel argument equals the remaining list length plus one; every step
consumes at least one character. -/
def scanAux (matcher : List Char → Option (String × Nat)) :
    Nat → List Char → Nat → List (String × Nat × Nat)
  | 0, _, _ => []
  | _ + 1, [], _ => []
  | fuel + 1, c :: rest, i =>
    match matcher (c :: rest) with
    | some (t, len) => (t, i, len) :: scanAux matcher fuel ((c :: rest).drop len) (i + len)
    | none => scanAux matcher fuel rest (i + 1)

/-- All `tagRegex` matches of a line with their index and length. -/
def scanTags (cs : List Char) : List (String × Nat × Nat) :=
  scanAux tagMatchAt (cs.length + 1) cs 0

/-- All `endTagRegex` matches of a line with their index and length. -/
def scanEndTags (cs : List Char) : List (String × Nat × Nat) :=
  scanAux endTagMatchAt (cs.length + 1) cs 0

/-- Replay events of one validation pass, carrying the source positions
used to build diagnostics. -/
inductive PEv where
  | oOpen (line idx : Nat)
  | oClose (line idx : Nat)
  | tOpen (tag : String) (line idx len : Nat)
  | tClose (tag : String) (line idx len : Nat)
deriving DecidableEq, Repr

/-- Pending tag frame (part_001 line 524): `\x7b tag, lineNumber, column,
length \x7d`. -/
structure Frame where
  tag : String
  lineNumber : Nat
  column : Nat
  length : Nat
deriving DecidableEq, Repr

/-- Diagnostic marker; the source always uses severity Error, so only the
message and range are modelled. -/
structure Marker where
  message : String
  startLineNumber : Nat
  startColumn : Nat
  endLineNumber : Nat
  endColumn : Nat
deriving DecidableEq, Repr

/-- Stable insertion of an output-marker occurrence by index, modelling
the stable `Array.prototype.sort((a, b) => a.index - b.index)`. -/
def insertByIdx (x : Bool × Nat) : List (Bool × Nat) → List (Bool × Nat)
  | [] => [x]
  | y :: ys => if x.2 < y.2 then x :: y :: ys else y :: insertByIdx x ys

/-- Stable sort by index of the concatenated start/end occurrence lists
(`outputMatches.sort(...)` in the source). -/
def sortByIdx : List (Bool × Nat) → List (Bool × Nat)
  | [] => []
  | x :: xs => insertByIdx x (sortByIdx xs)

/-- Output-marker events of one line: starts and ends collected
separately (`type: 'start' | 'end'` tagged with `true`/`false` here),
concatenated and stably sorted by column. -/
def lineOutputEvents (lineNumber : Nat) (cs : List Char) : List PEv :=
  (sortByIdx ((scanOStarts cs 0).map (fun i => (true, i))
      ++ (scanOEnds cs 0).map (fun i => (false, i)))).map
    (fun m => if m.1 then PEv.oOpen lineNumber m.2 else PEv.oClose lineNumber m.2)

/-- Block-tag keyword list of part_001 (lines 644-661). -/
def blockTags : List String :=
  ["if", "unless", "case", "for", "tablerow", "comment", "raw", "capture",
   "form", "paginate", "layout", "block", "schema", "stylesheet", "javascript",
   "liquid"]

/-- Embedding of `isBlockTag` (part_001). -/
def isBlockTag (tag : String) : Bool :=
  blockTags.contains tag

/-- Embedding of `tag.startsWith('end')`. -/
def startsWithEnd (tag : String) : Bool :=
  match tag.toList with
  | 'e' :: 'n' :: 'd' :: _ => true
  | _ => false

/-- Events of one line in the order the source replays them: output
markers sorted by column, then every opening tag match satisfying
`!tag.startsWith('end') && isBlockTag(tag)`, then every end tag match. -/
def lineEvents (lineNumber : Nat) (cs : List Char) : List PEv :=
  lineOutputEvents lineNumber cs
    ++ ((scanTags cs).filter (fun m => !startsWithEnd m.1 && isBlockTag m.1)).map
        (fun m => PEv.tOpen m.1 lineNumber m.2.1 m.2.2)
    ++ (scanEndTags cs).map (fun m => PEv.tClose m.1 lineNumber m.2.1 m.2.2)

/-- Split on `/\r?\n/`: a lone `\r` is not a separator. -/
def splitLinesAux : List Char → List Char → List (List Char)
  | [], acc => [acc.reverse]
  | '\r' :: '\n' :: rest, acc => acc.reverse :: splitLinesAux rest []
  | '\n' :: rest, acc => acc.reverse :: splitLinesAux rest []
  | c :: rest, acc => splitLinesAux rest (c :: acc)

def splitLines (cs : List Char) : List (List Char) :=
  splitLinesAux cs []

/-- Events of all lines, numbering lines from 1. -/
def linesEvents : Nat → List (List Char) → List PEv
  | _, [] => []
  | n, cs :: rest => lineEvents n cs ++ linesEvents (n + 1) rest

/-- Event stream of a whole document in source replay order. -/
def docEvents (text : List Char) : List PEv :=
  linesEvents 1 (splitLines text)

def unmatchedClosingMarker (line idx : Nat) : Marker :=
  ⟨"Unmatched closing \x27\x7d\x7d\x27", line, idx + 1, line, idx + 3⟩

def unmatchedEndMarker (tag : String) (line idx len : Nat) : Marker :=
  ⟨"Unmatched end tag \x27end" ++ tag ++ "\x27", line, idx + 1, line, idx + len + 1⟩

def mismatchMarker (expected found : String) (line idx len : Nat) : Marker :=
  ⟨"Expected \x27end" ++ expected ++ "\x27 but found \x27end" ++ found ++ "\x27",
    line, idx + 1, line, idx + len + 1⟩

/-- Unclosed-frame diagnostic of part_001 (lines 627-639): the range runs
from the recorded column to column plus recorded length. -/
def unclosedMarker (f : Frame) : Marker :=
  ⟨if f.tag = "output" then "Unclosed output tag \x27\x7b\x7b\x27"
    else "Unclosed tag \x27" ++ f.tag ++ "\x27",
    f.lineNumber, f.column, f.lineNumber, f.column + f.length⟩

/-- Embedding of `stack.findLastIndex((item) => item.tag === 'output')`
followed by `stack.splice(outputIndex, 1)`: the stack top is the list
head, so the last JS array index is the first frame from the head. -/
def removeFirstOutput : List Frame → Option (List Frame)
  | [] => none
  | f :: rest =>
    if f.tag = "output" then some rest
    else (removeFirstOutput rest).map (f :: ·)

/-- One replay step of part_001's validator: push on output-open, search
and splice on output-close (diagnostic when no output frame exists), push
on opening block tag, unconditional pop with mismatch check on closing
tag (diagnostic on empty stack). -/
def stepValidate : (List Frame × List Marker) → PEv → (List Frame × List Marker)
  | (st, ms), .oOpen line idx => (⟨"output", line, idx + 1, 2⟩ :: st, ms)
  | (st, ms), .oClose line idx =>
    match removeFirstOutput st with
    | some st2 => (st2, ms)
    | none => (st, ms ++ [unmatchedClosingMarker line idx])
  | (st, ms), .tOpen tag line idx len => (⟨tag, line, idx + 1, len⟩ :: st, ms)
  | (st, ms), .tClose tag line idx len =>
    match st with
    | [] => ([], ms ++ [unmatchedEndMarker tag line idx len])
    | top :: rest =>
      (rest, if top.tag = tag then ms else ms ++ [mismatchMarker top.tag tag line idx len])

/-- Embedding of part_001's `validateLiquidSyntax` (lines 519-642): fold
the replay events over the shared stack, then report every leftover frame
from the top down as unclosed. -/
def validateLiquidSyntax (text : String) : List Marker :=
  let p := (docEvents text.toList).foldl stepValidate ([], [])
  p.2 ++ p.1.map unclosedMarker

/-! The older validator in src/index.ts (lines 479-609).  It scans the
same four regexes but differs in three places: its pending frames carry
no length, its block-tag list lacks "liquid", an output-close marker pops
frames off the stack until an output frame is found (discarding
intervening block-tag frames, and emptying the stack when no output frame
exists), and its unclosed diagnostics use a zero-width range at the
recorded column. -/

/-- Pending frame of index.ts (line 484): tag, lineNumber, column. -/
structure FrameIdx where
  tag : String
  lineNumber : Nat
  column : Nat
deriving DecidableEq, Repr

/-- Block-tag keyword list of index.ts (lines 611-627): no "liquid". -/
def blockTagsIdx : List String :=
  ["if", "unless", "case", "for", "tablerow", "comment", "raw", "capture",
   "form", "paginate", "layout", "block", "schema", "stylesheet", "javascript"]

def isBlockTagIdx (tag : String) : Bool :=
  blockTagsIdx.contains tag

/-- Embedding of the index.ts close-marker loop (lines 522-528):
`while (stack.length > 0) \x7b last = stack.pop(); if (last.tag === 'output')
break \x7d` — pops and discards every frame above the nearest output frame;
`none` when the stack is exhausted without finding one. -/
def popThroughOutput : List FrameIdx → Option (List FrameIdx)
  | [] => none
  | f :: rest => if f.tag = "output" then some rest else popThroughOutput rest

/-- Events of one line for the index.ts validator: identical scanning, but
opening tags are filtered with its own block-tag list. -/
def lineEventsIdx (lineNumber : Nat) (cs : List Char) : List PEv :=
  lineOutputEvents lineNumber cs
    ++ ((scanTags cs).filter (fun m => !startsWithEnd m.1 && isBlockTagIdx m.1)).map
        (fun m => PEv.tOpen m.1 lineNumber m.2.1 m.2.2)
    ++ (scanEndTags cs).map (fun m => PEv.tClose m.1 lineNumber m.2.1 m.2.2)

def linesEventsIdx : Nat → List (List Char) → List PEv
  | _, [] => []
  | n, cs :: rest => lineEventsIdx n cs ++ linesEventsIdx (n + 1) rest

def docEventsIdx (text : List Char) : List PEv :=
  linesEventsIdx 1 (splitLines text)

/-- Unclosed-frame diagnostic of index.ts (lines 590-606): start and end
column are both the recorded column. -/
def unclosedMarkerIdx (f : FrameIdx) : Marker :=
  ⟨if f.tag = "output" then "Unclosed output tag \x27\x7b\x7b\x27"
    else "Unclosed tag \x27" ++ f.tag ++ "\x27",
    f.lineNumber, f.column, f.lineNumber, f.column⟩

/-- One replay step of the index.ts validator. -/
def stepValidateIdx : (List FrameIdx × List Marker) → PEv → (List FrameIdx × List Marker)
  | (st, ms), .oOpen line idx => (⟨"output", line, idx + 1⟩ :: st, ms)
  | (st, ms), .oClose line idx =>
    match popThroughOutput st with
    | some st2 => (st2, ms)
    | none => ([], ms ++ [unmatchedClosingMarker line idx])
  | (st, ms), .tOpen tag line idx _ => (⟨tag, line, idx + 1⟩ :: st, ms)
  | (st, ms), .tClose tag line idx len =>
    match st with
    | [] => ([], ms ++ [unmatchedEndMarker tag line idx len])
    | top :: rest =>
      (rest, if top.tag = tag then ms else ms ++ [mismatchMarker top.tag tag line idx len])

/-- Embedding of index.ts `validateLiquidSyntax` (lines 479-609). -/
def validateLiquidSyntaxIdx (text : String) : List Marker :=
  let p := (docEventsIdx text.toList).foldl stepValidateIdx ([], [])
  p.2 ++ p.1.map unclosedMarkerIdx

/-! Well-formedness of event sequences and the claims about the
validator. -/

/-- Matching open/close event pair: an output-open against an
output-close, or an opening block tag against the closing tag of the same
name. -/
def evMatch : PEv → PEv → Bool
  | .oOpen _ _, .oClose _ _ => true
  | .tOpen t _ _ _, .tClose t2 _ _ _ => t == t2
  | _, _ => false

/-- Properly nested, fully closed event sequences: empty, or an open
event, a balanced inner part, the matching close event, and a balanced
remainder. -/
inductive Bal : List PEv → Prop where
  | nil : Bal []
  | pair (e e2 : PEv) (inner rest : List PEv) :
      evMatch e e2 = true → Bal inner → Bal rest → Bal (e :: (inner ++ e2 :: rest))

/-- Replaying a balanced event sequence leaves the stack and the emitted
markers unchanged. -/
theorem replay_balanced {es : List PEv} (hb : Bal es) :
    ∀ st ms, es.foldl stepValidate (st, ms) = (st, ms) := by
  induction hb with
  | nil => intro st ms; rfl
  | pair e e2 inner rest hm hinner hrest ihinner ihrest =>
    intro st ms
    rw [List.foldl_cons]
    cases e with
    | oOpen l i =>
      cases e2 with
      | oClose l2 i2 =>
        rw [List.foldl_append, show stepValidate (st, ms) (.oOpen l i)
            = (⟨"output", l, i + 1, 2⟩ :: st, ms) from rfl,
          ihinner, List.foldl_cons,
          show stepValidate (⟨"output", l, i + 1, 2⟩ :: st, ms) (.oClose l2 i2)
            = (st, ms) by simp [stepValidate, removeFirstOutput]]
        exact ihrest st ms
      | oOpen l2 i2 => exact absurd hm (by simp [evMatch])
      | tOpen t l2 i2 len => exact absurd hm (by simp [evMatch])
      | tClose t l2 i2 len => exact absurd hm (by simp [evMatch])
    | tOpen t l i len =>
      cases e2 with
      | tClose t2 l2 i2 len2 =>
        have ht : t = t2 := by simpa [evMatch] using hm
        rw [List.foldl_append, show stepValidate (st, ms) (.tOpen t l i len)
            = (⟨t, l, i + 1, len⟩ :: st, ms) from rfl,
          ihinner, List.foldl_cons,
          show stepValidate (⟨t, l, i + 1, len⟩ :: st, ms) (.tClose t2 l2 i2 len2)
            = (st, ms) by simp [stepValidate, ht]]
        exact ihrest st ms
      | oOpen l2 i2 => exact absurd hm (by simp [evMatch])
      | oClose l2 i2 => exact absurd hm (by simp [evMatch])
      | tOpen t2 l2 i2 len2 => exact absurd hm (by simp [evMatch])
    | oClose l i => exact absurd hm (by cases e2 <;> simp [evMatch])
    | tClose t l i len => exact absurd hm (by cases e2 <;> simp [evMatch])

/-- Column position of a replay event on its line. -/
def pevIdx : PEv → Nat
  | .oOpen _ i => i
  | .oClose _ i => i
  | .tOpen _ _ i _ => i
  | .tClose _ _ i _ => i

def insertPEvByIdx (x : PEv) : List PEv → List PEv
  | [] => [x]
  | y :: ys => if pevIdx x < pevIdx y then x :: y :: ys else y :: insertPEvByIdx x ys

/-- Stable sort of a line's events by column. -/
def sortPEvByIdx : List PEv → List PEv
  | [] => []
  | x :: xs => insertPEvByIdx x (sortPEvByIdx xs)

/-- Tokens of all lines in raw document order: each line's recognized
constructs (output markers, opening block tags, closing tags) ordered by
column, lines in order. -/
def docOrderLinesEvents : Nat → List (List Char) → List PEv
  | _, [] => []
  | n, cs :: rest => sortPEvByIdx (lineEvents n cs) ++ docOrderLinesEvents (n + 1) rest

/-- Token stream of a document in raw document order. -/
def docOrderEvents (text : List Char) : List PEv :=
  docOrderLinesEvents 1 (splitLines text)

/-- Well-formed document in the sense of the claim: every block tag closed
by the matching end tag, every output-open closed by an output-close, all
constructs properly nested, in document order. -/
def WellFormedDoc (text : String) : Prop :=
  Bal (docOrderEvents text.toList)

theorem removeFirstOutput_found (pre : List Frame) (out : Frame) (post : List Frame)
    (hpre : ∀ f ∈ pre, f.tag ≠ "output") (hout : out.tag = "output") :
    removeFirstOutput (pre ++ out :: post) = some (pre ++ post) := by
  induction pre with
  | nil => simp [removeFirstOutput, hout]
  | cons f pre ih =>
    have hf : f.tag ≠ "output" := hpre f (by simp)
    have ih2 := ih (fun g hg => hpre g (by simp [hg]))
    simp [removeFirstOutput, hf, ih2]

theorem removeFirstOutput_none (st : List Frame)
    (hall : ∀ f ∈ st, f.tag ≠ "output") : removeFirstOutput st = none := by
  induction st with
  | nil => rfl
  | cons f rest ih =>
    have hf : f.tag ≠ "output" := hall f (by simp)
    simp [removeFirstOutput, hf, ih (fun g hg => hall g (by simp [hg]))]

/-- C2: replaying an output-close marker searches the stack from the top
for the nearest output frame and removes exactly that frame, leaving the
block-tag frames above it (and everything below) in place; when no output
frame exists anywhere on the stack, an unmatched-closing diagnostic is
emitted at the marker's column and the stack is unchanged. -/
theorem c2_output_close_search (st : List Frame) (ms : List Marker) (line idx : Nat) :
    (∀ pre out post, st = pre ++ out :: post →
      (∀ f ∈ pre, f.tag ≠ "output") → out.tag = "output" →
      stepValidate (st, ms) (.oClose line idx) = (pre ++ post, ms))
    ∧ ((∀ f ∈ st, f.tag ≠ "output") →
      stepValidate (st, ms) (.oClose line idx)
        = (st, ms ++ [unmatchedClosingMarker line idx])) := by
  constructor
  · intro pre out post hst hpre hout
    subst hst
    simp only [stepValidate, removeFirstOutput_found pre out post hpre hout]
  · intro hall
    simp only [stepValidate, removeFirstOutput_none st hall]

/-- Witness for C2: with an `if` frame sitting above an output frame the
close marker removes the output frame only; with only block frames the
diagnostic is emitted. -/
theorem c2_output_close_search_witness :
    stepValidate ([⟨"if", 1, 1, 10⟩, ⟨"output", 1, 11, 2⟩], []) (.oClose 2 0)
      = ([⟨"if", 1, 1, 10⟩], [])
    ∧ stepValidate ([⟨"if", 1, 1, 10⟩], []) (.oClose 2 0)
      = ([⟨"if", 1, 1, 10⟩], [unmatchedClosingMarker 2 0]) :=
  ⟨(c2_output_close_search [⟨"if", 1, 1, 10⟩, ⟨"output", 1, 11, 2⟩] [] 2 0).1
      [⟨"if", 1, 1, 10⟩] ⟨"output", 1, 11, 2⟩ [] rfl (by decide) rfl,
   (c2_output_close_search [⟨"if", 1, 1, 10⟩] [] 2 0).2 (by decide)⟩

/-- C4: a closing block tag on a non-empty stack pops the top frame
unconditionally and emits a mismatched-end-tag diagnostic exactly when
the names differ; on an empty stack it emits one unmatched-end-tag
diagnostic; and on the document `\x7b% if x %\x7d\x7b% endfor %\x7d` the
validator yields exactly the one mismatch diagnostic and no unclosed
diagnostic. -/
theorem c4_end_tag_pop :
    (∀ (top : Frame) (rest : List Frame) (ms : List Marker) (tag : String) (line idx len : Nat),
      stepValidate (top :: rest, ms) (.tClose tag line idx len)
        = (rest, if top.tag = tag then ms
            else ms ++ [mismatchMarker top.tag tag line idx len]))
    ∧ (∀ (ms : List Marker) (tag : String) (line idx len : Nat),
      stepValidate (([] : List Frame), ms) (.tClose tag line idx len)
        = ([], ms ++ [unmatchedEndMarker tag line idx len]))
    ∧ validateLiquidSyntax "\x7b% if x %\x7d\x7b% endfor %\x7d"
        = [mismatchMarker "if" "for" 1 10 12] :=
  ⟨fun _ _ _ _ _ _ _ => rfl, fun _ _ _ _ _ => rfl, by decide⟩

/-- Witness for C4 at concrete stacks: a matching pop emits nothing, a
mismatching pop emits the diagnostic, an empty-stack close emits the
unmatched diagnostic. -/
theorem c4_end_tag_pop_witness :
    stepValidate ([⟨"if", 1, 1, 10⟩], []) (.tClose "if" 1 10 11) = ([], [])
    ∧ stepValidate ([⟨"if", 1, 1, 10⟩], []) (.tClose "for" 1 10 12)
        = ([], [mismatchMarker "if" "for" 1 10 12])
    ∧ stepValidate (([] : List Frame), []) (.tClose "if" 1 0 11)
        = ([], [unmatchedEndMarker "if" 1 0 11]) :=
  ⟨by rw [c4_end_tag_pop.1 ⟨"if", 1, 1, 10⟩ [] [] "if" 1 10 11]; decide,
   by rw [c4_end_tag_pop.1 ⟨"if", 1, 1, 10⟩ [] [] "for" 1 10 12]; decide,
   c4_end_tag_pop.2.1 [] "if" 1 0 11⟩

/-- C3 fails on the code: on the single-line document
`\x7b% if x %\x7d\x7b\x7b y \x7d\x7d` the output pair is matched and
removed during the output phase, so validation yields exactly one
diagnostic (the unclosed `if`), not two. -/
theorem c3_counterexample :
    validateLiquidSyntax "\x7b% if x %\x7d\x7b\x7b y \x7d\x7d"
      = [⟨"Unclosed tag \x27if\x27", 1, 1, 1, 11⟩]
    ∧ ( validateLiquidSyntax "\x7b% if x %\x7d\x7b\x7b y \x7d\x7d").length ≠ 2 := by
  constructor
  · decide
  · decide

/-- C3 amended: for the input document `\x7b% if x %\x7d\x7b\x7b y \x7d\x7d`
validation yields exactly one unclosed-`if` diagnostic at line 1,
columns 1-11; the output open at column 11 is closed by the close marker
at column 16 and produces no diagnostic. -/
theorem c3_amended_single_unclosed_if :
    validateLiquidSyntax "\x7b% if x %\x7d\x7b\x7b y \x7d\x7d"
      = [⟨"Unclosed tag \x27if\x27", 1, 1, 1, 11⟩] := by
  decide

/-- C1 fails on the code: the document
`\x7b% for x %\x7d` / `\x7b% endfor %\x7d\x7b% if y %\x7d` / `\x7b% endif %\x7d`
is well formed (every block tag closed by its matching end tag, properly
nested, in document order), yet the validator reports two mismatch
diagnostics, because each line replays its opening tags before its
closing tags. -/
theorem c1_wellformed_counterexample :
    WellFormedDoc "\x7b% for x %\x7d\n\x7b% endfor %\x7d\x7b% if y %\x7d\n\x7b% endif %\x7d"
    ∧ validateLiquidSyntax
        "\x7b% for x %\x7d\n\x7b% endfor %\x7d\x7b% if y %\x7d\n\x7b% endif %\x7d" ≠ [] := by
  constructor
  · unfold WellFormedDoc
    have hd : docOrderEvents
        (String.toList "\x7b% for x %\x7d\n\x7b% endfor %\x7d\x7b% if y %\x7d\n\x7b% endif %\x7d")
        = [.tOpen "for" 1 0 11, .tClose "for" 2 0 12, .tOpen "if" 2 12 10,
           .tClose "if" 3 0 11] := by decide
    rw [hd]
    exact Bal.pair (.tOpen "for" 1 0 11) (.tClose "for" 2 0 12) []
      [.tOpen "if" 2 12 10, .tClose "if" 3 0 11] rfl Bal.nil
      (Bal.pair (.tOpen "if" 2 12 10) (.tClose "if" 3 0 11) [] [] rfl Bal.nil Bal.nil)
  · decide

/-- C1 amended: the validator produces an empty diagnostic list for every
document whose replay event stream — per line, output markers in column
order, then opening block tags, then closing block tags — is properly
nested and fully closed.  (The validator replays each line in these three
phases, so nesting is judged in replay order rather than raw document
order.) -/
theorem c1_replay_balanced_no_diagnostics (text : String)
    (h : Bal (docEvents text.toList)) :
    validateLiquidSyntax text = [] := by
  unfold validateLiquidSyntax
  rw [replay_balanced h ([] : List Frame) ([] : List Marker)]
  rfl

/-- Witness for C1 amended: the document
`\x7b% if x %\x7d\x7b\x7b y \x7d\x7d\x7b% endif %\x7d` has a balanced
replay stream and validates with zero diagnostics. -/
theorem c1_replay_balanced_no_diagnostics_witness :
    validateLiquidSyntax "\x7b% if x %\x7d\x7b\x7b y \x7d\x7d\x7b% endif %\x7d" = [] := by
  apply c1_replay_balanced_no_diagnostics
  have hd : docEvents
      (String.toList "\x7b% if x %\x7d\x7b\x7b y \x7d\x7d\x7b% endif %\x7d")
      = [.oOpen 1 10, .oClose 1 15, .tOpen "if" 1 0 10, .tClose "if" 1 17 11] := by decide
  rw [hd]
  exact Bal.pair (.oOpen 1 10) (.oClose 1 15) []
    [.tOpen "if" 1 0 10, .tClose "if" 1 17 11] rfl Bal.nil
    (Bal.pair (.tOpen "if" 1 0 10) (.tClose "if" 1 17 11) [] [] rfl Bal.nil Bal.nil)

/-- C10 fails: the two validator implementations disagree already on the
document `\x7b\x7b`, where they emit the same message but different end
columns. -/
theorem c10_counterexample :
    validateLiquidSyntax "\x7b\x7b" ≠ validateLiquidSyntaxIdx "\x7b\x7b" := by
  decide

/-- C10 amended: the two implementations are not equivalent.  On `\x7b\x7b`
both report one unclosed-output diagnostic with the same message and start
position but end columns 3 (part_001) versus 1 (index.ts); on
`\x7b% liquid %\x7d` part_001 reports an unclosed `liquid` block while
index.ts, whose block-tag list lacks `liquid`, reports nothing; and on
`\x7b\x7b` / `\x7b% if x %\x7d` / `\x7d\x7d` part_001's close-marker search
leaves the intervening `if` frame on the stack (reporting it unclosed)
while index.ts pops and discards it (reporting nothing). -/
theorem c10_divergences :
    ( validateLiquidSyntax "\x7b\x7b"
        = [⟨"Unclosed output tag \x27\x7b\x7b\x27", 1, 1, 1, 3⟩]
      ∧ validateLiquidSyntaxIdx "\x7b\x7b"
        = [⟨"Unclosed output tag \x27\x7b\x7b\x27", 1, 1, 1, 1⟩])
    ∧ ( validateLiquidSyntax "\x7b% liquid %\x7d"
        = [⟨"Unclosed tag \x27liquid\x27", 1, 1, 1, 13⟩]
      ∧ validateLiquidSyntaxIdx "\x7b% liquid %\x7d" = [])
    ∧ ( validateLiquidSyntax "\x7b\x7b\n\x7b% if x %\x7d\n\x7d\x7d"
        = [⟨"Unclosed tag \x27if\x27", 2, 1, 2, 11⟩]
      ∧ validateLiquidSyntaxIdx "\x7b\x7b\n\x7b% if x %\x7d\n\x7d\x7d" = []) := by
  refine ⟨⟨?_, ?_⟩, ⟨?_, ?_⟩, ⟨?_, ?_⟩⟩ <;> decide

/-! Debounced re-validation (`setModelLiquidValidation`, part_001 lines
279-310).  The change handler clears any pending timeout and schedules a
new validation `debounceMs` after the change; a timer that is still
pending when the next change arrives is cancelled, and a timer that fires
runs a validation pass reading the current (latest) document text. -/

/-- Operational model of the change handler and timer.  The state is the
pending timeout: its fire time and the document text that will be current
when it fires (no further change happens before then in that branch).
Processing a change list in time order: a pending timer whose fire time
has arrived before the next change fires a validation pass; otherwise the
change cancels it (`window.clearTimeout`); either way the change
schedules a new timer at its own time plus the debounce delay
(`window.setTimeout`).  After the last change the pending timer fires. -/
def debounceGo (d : Nat) : List (Nat × String) → Option (Nat × String) → List (Nat × String)
  | [], none => []
  | [], some p => [p]
  | (t, x) :: rest, none => debounceGo d rest (some (t + d, x))
  | (t, x) :: rest, some (tf, y) =>
    if tf ≤ t then (tf, y) :: debounceGo d rest (some (t + d, x))
    else debounceGo d rest (some (t + d, x))

/-- Validation passes (fire time, observed text) produced by a list of
change notifications (time, new text) in increasing time order, starting
with no pending timer. -/
def debounceRun (d : Nat) (changes : List (Nat × String)) : List (Nat × String) :=
  debounceGo d changes none

/-- Last change of a non-empty burst. -/
def lastChange (c : Nat × String) : List (Nat × String) → Nat × String
  | [] => c
  | c2 :: rest => lastChange c2 rest

theorem debounceGo_burst (d : Nat) :
    ∀ (rest : List (Nat × String)) (p : Nat × String),
    List.Chain (fun a b => b.1 < a.1 + d) p rest →
    debounceGo d rest (some (p.1 + d, p.2))
      = [((lastChange p rest).1 + d, (lastChange p rest).2)] := by
  intro rest
  induction rest with
  | nil => intro p _; rfl
  | cons q rest ih =>
    intro p hchain
    cases hchain with
    | cons hlt htail =>
      have hnot : ¬ (p.1 + d ≤ q.1) := Nat.not_le_of_lt hlt
      show (if p.1 + d ≤ q.1 then _ else debounceGo d rest (some (q.1 + d, q.2))) = _
      rw [if_neg hnot]
      exact ih q htail

/-- C9: a burst of change notifications in which every notification
arrives strictly within the debounce window of the previous one triggers
exactly one validation pass, which fires one debounce window after the
last notification and observes the text of the last notification; and
every new change arriving before a pending timer fires cancels and
replaces that timer. -/
theorem c9_debounce (d : Nat) (c : Nat × String) (rest : List (Nat × String))
    (hburst : List.Chain (fun a b => b.1 < a.1 + d) c rest) :
    debounceRun d (c :: rest)
      = [((lastChange c rest).1 + d, (lastChange c rest).2)]
    ∧ (∀ (t : Nat) (x : String) (more : List (Nat × String)) (tf : Nat) (y : String),
        t < tf →
        debounceGo d ((t, x) :: more) (some (tf, y))
          = debounceGo d more (some (t + d, x))) := by
  constructor
  · show debounceGo d rest (some (c.1 + d, c.2)) = _
    exact debounceGo_burst d rest c hburst
  · intro t x more tf y hlt
    show (if tf ≤ t then _ else debounceGo d more (some (t + d, x))) = _
    rw [if_neg (Nat.not_le_of_lt hlt)]

/-- Witness for C9: three rapid changes at times 0, 100, 200 with a
300-unit debounce produce a single pass at time 500 over the last text. -/
theorem c9_debounce_witness :
    debounceRun 300 [(0, "a"), (100, "ab"), (200, "abc")] = [(500, "abc")]
    ∧ debounceGo 300 [(100, "ab")] (some (300, "a"))
        = debounceGo 300 [] (some (400, "ab")) :=
  ⟨(c9_debounce 300 (0, "a") [(100, "ab"), (200, "abc")]
      (by constructor
          · decide
          · constructor
            · decide
            · exact List.Chain.nil)).1,
   (c9_debounce 300 (0, "a") [] List.Chain.nil).2 100 "ab" [] 300 "a" (by decide)⟩

end ML
